import Mathlib

/-!
Verification of the orchestration core of the contract-ai repository.

The definitions below are shallow embeddings of the Python source:
* `is_retryable_error`   — `AgentCoreWrapper.is_retryable_error`
  (src/agents/agentcore_wrapper.py, lines 299-349)
* `runRetry`             — the retry loop of `AgentCoreWrapper.execute_with_retry`
  (src/agents/agentcore_wrapper.py, lines 390-467)

Machine reals (Python floats) are modelled as rationals; Python dicts whose
keys are fixed in the source are modelled as structures with `Option` fields
(`none` = key absent); exceptions are modelled as explicit error values
carrying the message string and the exception type name.
-/

namespace ContractAI

/-- Lower-case a string character-wise (model of Python `str.lower()` on the
ASCII messages the classifier sees), returned as a character list so that
substring containment is the `<:+:` relation on lists. -/
def toLowerChars (s : String) : List Char :=
  s.data.map Char.toLower

/-- The fixed message-token list `retryable_patterns` of
`AgentCoreWrapper.is_retryable_error`. -/
def retryable_patterns : List String :=
  ["throttling", "rate limit", "service unavailable", "unavailable",
   "timeout", "connection", "network", "temporar", "transient"]

/-- The exception-type list `retryable_types` of
`AgentCoreWrapper.is_retryable_error`. -/
def retryable_types : List String :=
  ["TimeoutError", "ConnectionError", "ThrottlingException",
   "ServiceUnavailableException"]

/-- `AgentCoreWrapper.is_retryable_error`: first the lower-cased message is
searched for each pattern token (substring match), then the exception type
name is compared against the retryable type list; otherwise the error is
fatal. A pure function of the message and the type name. -/
def is_retryable_error (msg ty : String) : Bool :=
  if retryable_patterns.any (fun p => decide (p.data <:+: toLowerChars msg)) then
    true
  else if retryable_types.contains ty then
    true
  else
    false

/-- One attempt of the unit of work inside `execute_with_retry`: the awaited
call either returns a converted response, times out (`asyncio.TimeoutError`),
or raises an exception with a message and a type name. -/
inductive AttemptOutcome where
  | success (resp : String)
  | timeout
  | failure (msg ty : String)
deriving DecidableEq, Repr

/-- Terminal result of `execute_with_retry`: the converted agent response, or
the failure dict carrying the `error` string and `error_type` name. -/
inductive ExecResult where
  | ok (resp : String)
  | err (error : String) (error_type : String)
deriving DecidableEq, Repr

/-- Observable trace of one `execute_with_retry` run: its result, how many
attempts were started, and the backoff sleeps performed (in order). -/
structure RetryTrace where
  result : ExecResult
  attemptsMade : ℕ
  sleeps : List ℚ
deriving DecidableEq, Repr

/-- The failure dict built after the retry loop exits
(src/agents/agentcore_wrapper.py, lines 455-467): the error message embeds
`str(last_error)` (`"None"` when no attempt ran) and `error_type` is the last
error's type name (`"Unknown"` when no attempt ran). -/
def retryExhausted (maxRetries : ℕ) (lastError : Option (String × String)) :
    ExecResult :=
  .err ("Agent execution failed after " ++ toString maxRetries ++
        " attempts: " ++ (match lastError with
                          | some (m, _) => m
                          | none => "None"))
       (match lastError with
        | some (_, t) => t
        | none => "Unknown")

/-- The loop `for attempt in range(max_retries)` of `execute_with_retry`,
with `fuel` the number of remaining iterations (invariant:
`attempt + fuel = maxRetries`). On success the response is returned at once;
a timeout is always retried; any other exception is classified by
`is_retryable_error` and a fatal error breaks out of the loop immediately.
A backoff sleep of `baseDelay * 2 ^ attempt` happens only when another
attempt remains (`attempt < maxRetries - 1`). -/
def runRetryAux (behavior : ℕ → AttemptOutcome) (maxRetries : ℕ)
    (baseDelay : ℚ) :
    ℕ → ℕ → Option (String × String) → List ℚ → RetryTrace
  | 0, attempt, lastError, sleeps =>
      ⟨retryExhausted maxRetries lastError, attempt, sleeps⟩
  | fuel + 1, attempt, _lastError, sleeps =>
      match behavior attempt with
      | .success r => ⟨.ok r, attempt + 1, sleeps⟩
      | .timeout =>
          runRetryAux behavior maxRetries baseDelay fuel (attempt + 1)
            (some ("", "TimeoutError"))
            (if attempt + 1 < maxRetries then
               sleeps ++ [baseDelay * 2 ^ attempt]
             else sleeps)
      | .failure m t =>
          if is_retryable_error m t then
            runRetryAux behavior maxRetries baseDelay fuel (attempt + 1)
              (some (m, t))
              (if attempt + 1 < maxRetries then
                 sleeps ++ [baseDelay * 2 ^ attempt]
               else sleeps)
          else
            ⟨retryExhausted maxRetries (some (m, t)), attempt + 1, sleeps⟩

/-- `AgentCoreWrapper.execute_with_retry` restricted to its retry loop:
`behavior k` is the outcome of the `k`-th attempt of the wrapped unit of
work, `maxRetries` is `self.max_retries` and `baseDelay` is
`self.retry_delay_seconds`. -/
def runRetry (behavior : ℕ → AttemptOutcome) (maxRetries : ℕ)
    (baseDelay : ℚ) : RetryTrace :=
  runRetryAux behavior maxRetries baseDelay maxRetries 0 none []

/-- The `risk_assessment` sub-dict of an analysis result, as read by
`OrchestratorAgent._aggregate_batch_statistics`. -/
structure RiskAssessment where
  risks : List String
  risk_score : ℚ
deriving DecidableEq, Repr

/-- A per-contract analysis result dict. The source passes these dicts
around with a fixed key set; `none` models an absent key. -/
structure ResultDict where
  success : Bool
  contract_id : Option String := none
  contract_index : Option ℕ := none
  error : Option String := none
  error_type : Option String := none
  execution_time : Option ℚ := none
  contract_type : Option String := none
  risk_assessment : Option RiskAssessment := none
  obligations : Option (List String) := none
deriving DecidableEq, Repr

/-- Outcome of one scheduled coroutine as observed by
`asyncio.gather(..., return_exceptions=True)`: either the returned dict or
a raised exception (message and type name). -/
inductive TaskRun where
  | ok (d : ResultDict)
  | exn (msg ty : String)
deriving DecidableEq, Repr

/-- An input contract dict with the keys `BatchProcessingAgent` reads. -/
structure Contract where
  id : Option String := none
  text : Option String := none
  s3_bucket : Option String := none
  s3_key : Option String := none
deriving DecidableEq, Repr

/-- Python truthiness of an optional string (`None` and `""` are falsy). -/
def pyTruthy : Option String → Bool
  | none => false
  | some s => !s.isEmpty

/-- `d.get(k, 0)` on a Python dict with string keys and integer counts,
modelled as an association list keyed by first occurrence. -/
def dictGetNat (d : List (String × ℕ)) (k : String) : ℕ :=
  ((d.find? (fun p => p.1 == k)).map Prod.snd).getD 0

/-- `d[k] = v` on a Python dict: overwrite the entry of an existing key in
place (keys occur at most once), otherwise append the new key at the end. -/
def dictSet (k : String) (v : ℕ) : List (String × ℕ) → List (String × ℕ)
  | [] => [(k, v)]
  | p :: rest => if p.1 == k then (k, v) :: rest else p :: dictSet k v rest

/-- The statistics dict built by
`BatchProcessingAgent._calculate_batch_statistics`. -/
structure BatchStats where
  total_contracts : ℕ
  successful_count : ℕ
  failed_count : ℕ
  success_rate : ℚ
  average_execution_time : ℚ
  min_execution_time : ℚ
  max_execution_time : ℚ
  contract_types : List (String × ℕ)
deriving DecidableEq, Repr

/-- The list comprehension
`[r.get('execution_time', 0.0) for r in results if 'execution_time' in r]`. -/
def executionTimes (results : List ResultDict) : List ℚ :=
  (results.filter (fun r => r.execution_time.isSome)).map
    (fun r => r.execution_time.getD 0)

/-- The `contract_types` histogram loop of `_calculate_batch_statistics`:
only results with a truthy `success` are counted, keyed by their
`contract_type` (default "Unknown"). -/
def contractTypesHist (results : List ResultDict) : List (String × ℕ) :=
  results.foldl
    (fun d r =>
      if r.success then
        dictSet (r.contract_type.getD "Unknown")
          (dictGetNat d (r.contract_type.getD "Unknown") + 1) d
      else d)
    []

/-- `BatchProcessingAgent._calculate_batch_statistics`
(src/agents/batch_processing_entrypoint.py, lines 479-515). -/
def calculate_batch_statistics (results : List ResultDict) : BatchStats :=
  let total := results.length
  let successful := (results.filter (fun r => r.success)).length
  let execution_times := executionTimes results
  { total_contracts := total
    successful_count := successful
    failed_count := total - successful
    success_rate := if 0 < total then (successful : ℚ) / (total : ℚ) * 100 else 0
    average_execution_time :=
      if execution_times.isEmpty then 0
      else execution_times.sum / (execution_times.length : ℚ)
    min_execution_time :=
      match execution_times with
      | [] => 0
      | t :: ts => ts.foldl min t
    max_execution_time :=
      match execution_times with
      | [] => 0
      | t :: ts => ts.foldl max t
    contract_types := contractTypesHist results }

/-- `asyncio.gather(*tasks, return_exceptions=True)`: every child coroutine
writes its outcome into the result slot of its own index, whatever the
completion order (`order` lists the child indices in completion order); the
gathered list is read out index-aligned once all slots are filled. -/
def gatherModel (runs : List TaskRun) (order : List ℕ) : List TaskRun :=
  (order.foldl (fun s i => s.set i runs[i]?)
      (List.replicate runs.length (none : Option TaskRun))).map
    (fun o => o.getD (TaskRun.exn "not completed" "InvalidStateError"))

/-- The result-processing loop of `process_batch` (lines 156-167): a raised
exception at index `idx` becomes a failure dict carrying `str(e)` and
`type(e).__name__`; a returned dict is kept as is. -/
def handleGatherResult (idx : ℕ) : TaskRun → ResultDict
  | .ok d => d
  | .exn m t =>
      { success := false, contract_index := some idx,
        error := some m, error_type := some t }

/-- The dict returned by `BatchProcessingAgent.process_batch`: either the
structural-failure dict (an `error` string, no `results`, no `statistics`)
or the success dict with results, statistics and elapsed time. -/
inductive BatchResponse where
  | errResp (error : String) (error_type : Option String) (execution_time : ℚ)
  | okResp (results : List ResultDict) (statistics : BatchStats)
      (execution_time : ℚ)
deriving DecidableEq, Repr

/-- `BatchProcessingAgent.process_batch`
(src/agents/batch_processing_entrypoint.py, lines 113-223): validate
non-emptiness, schedule one semaphore-guarded coroutine per contract
(`exec i c` is the outcome of `_process_single_contract_with_semaphore` for
contract `c` at index `i`), gather with `return_exceptions=True`, convert
exceptions to failure dicts, and compute statistics. -/
def process_batch (contracts : List Contract) (exec : ℕ → Contract → TaskRun)
    (order : List ℕ) (batchElapsed : ℚ) : BatchResponse :=
  if contracts.isEmpty then
    .errResp "No contracts provided" none 0
  else
    let runs := contracts.enum.map (fun p => exec p.1 p.2)
    let processed := (gatherModel runs order).enum.map
      (fun p => handleGatherResult p.1 p.2)
    .okResp processed (calculate_batch_statistics processed) batchElapsed

/-- `BatchProcessingAgent._process_single_contract`
(src/agents/batch_processing_entrypoint.py, lines 285-367): validate the
contract shape, then run the analysis exactly once (`analyze` is the outcome
of the `_analyze_with_gateway_tools` / `_basic_analysis` call, `.exn` when it
raises). Returns the result dict together with the number of analysis
invocations performed — the source contains no retry around the analysis. -/
def processSingleContract (c : Contract) (idx : ℕ) (elapsed : ℚ)
    (analyze : TaskRun) : ResultDict × ℕ :=
  let contract_id := c.id.getD ("contract-" ++ toString idx)
  if !pyTruthy c.text && !(pyTruthy c.s3_bucket && pyTruthy c.s3_key) then
    ({ success := false, contract_id := some contract_id,
       contract_index := some idx,
       error := some "Contract must have \x27text\x27 or \x27s3_bucket\x27 and \x27s3_key\x27",
       execution_time := some 0 }, 0)
  else
    match analyze with
    | .ok d =>
        ({ d with contract_id := some contract_id, contract_index := some idx,
                  execution_time := some elapsed }, 1)
    | .exn m t =>
        ({ success := false, contract_id := some contract_id,
           contract_index := some idx, error := some m, error_type := some t,
           execution_time := some elapsed }, 1)

/-- A 10-contract demo batch (all contracts carry text). -/
def demoContract (i : ℕ) : Contract :=
  { id := some ("contract-" ++ toString i), text := some "CONTRACT TEXT" }

/-- A batch of 10 demo contracts. -/
def demoContracts : List Contract := (List.range 10).map demoContract

/-- Per-task behavior in which exactly the tasks at indices 2 and 5 raise
and every other task succeeds with a recorded elapsed time and type. -/
def demoExec (i : ℕ) (_ : Contract) : TaskRun :=
  if i = 2 ∨ i = 5 then .exn "analysis crashed" "RuntimeError"
  else .ok { success := true, execution_time := some 1,
             contract_type := some "Service Agreement" }

/-- The dict a successful demo task returns. -/
def demoSuccessDict : ResultDict :=
  { success := true, execution_time := some 1,
    contract_type := some "Service Agreement" }

/-- The failure dict `process_batch` records for a demo task whose coroutine
raised at index `i`. -/
def demoFailureDict (i : ℕ) : ResultDict :=
  { success := false, contract_index := some i,
    error := some "analysis crashed", error_type := some "RuntimeError" }

/-- The processed results of the demo batch: failures at indices 2 and 5,
successes everywhere else. -/
def demoProcessed : List ResultDict :=
  [demoSuccessDict, demoSuccessDict, demoFailureDict 2, demoSuccessDict,
   demoSuccessDict, demoFailureDict 5, demoSuccessDict, demoSuccessDict,
   demoSuccessDict, demoSuccessDict]

/-- A two-result input for exercising the statistics function. -/
def demoStatsInput : List ResultDict :=
  [{ success := true, execution_time := some 2, contract_type := some "Lease" },
   { success := false, error := some "boom" }]

/-- A failed step-A result for the workflow gate. -/
def failedAnalysis : ResultDict := { success := false, error := some "analysis failed" }

/-- A successful result dict. -/
def okDict : ResultDict := { success := true }

/-- Modelled after cpython `asyncio.locks.Semaphore.__init__`, the
construction `asyncio.Semaphore(max_concurrent)` at
src/agents/batch_processing_entrypoint.py line 133: a `ValueError` is raised
only for a negative initial value; `0` is accepted. -/
def semaphoreInit (value : Int) : Except String ℕ :=
  if value < 0 then .error "Semaphore initial value must be >= 0"
  else .ok value.toNat

/-- Phase of one per-task coroutine relative to the semaphore: before
`async with semaphore` (waiting), inside the guarded block (critical), or
after release (done). -/
inductive Phase where
  | waiting
  | critical
  | done
deriving DecidableEq, Repr

/-- Interleaving state of a batch run: the semaphore counter and the phase
of each scheduled task. -/
structure SemState where
  count : ℕ
  phases : List Phase
deriving DecidableEq, Repr

/-- Initial state: counter at the configured limit, every task waiting. -/
def initState (n tasks : ℕ) : SemState := ⟨n, List.replicate tasks .waiting⟩

/-- Event-loop steps of `_process_single_contract_with_semaphore` under
`asyncio.Semaphore` semantics: a waiting task may enter the guarded block
only while the counter is positive (acquire decrements it); a task in the
guarded block may finish (release increments the counter on every exit
path of `async with`). -/
inductive SemStep : SemState → SemState → Prop
  | acquire (s : SemState) (i : ℕ) (hw : s.phases[i]? = some .waiting)
      (hc : 0 < s.count) :
      SemStep s ⟨s.count - 1, s.phases.set i .critical⟩
  | release (s : SemState) (i : ℕ) (hcrit : s.phases[i]? = some .critical) :
      SemStep s ⟨s.count + 1, s.phases.set i .done⟩

/-- States reachable by any interleaving of a batch of `tasks` coroutines
under a semaphore initialised to `n`. -/
def Reachable (n tasks : ℕ) (s : SemState) : Prop :=
  Relation.ReflTransGen SemStep (initState n tasks) s

/-- Number of tasks currently inside their semaphore-guarded critical
section. -/
def countCritical (s : SemState) : ℕ :=
  s.phases.countP (fun p => p == Phase.critical)

/-- The dict built by `OrchestratorAgent._aggregate_batch_statistics`. -/
structure AggStats where
  total_contracts : ℕ
  successful : ℕ
  failed : ℕ
  contract_types : List (String × ℕ)
  total_risks : ℕ
  average_risk_score : ℚ
  total_obligations : ℕ
deriving DecidableEq, Repr

/-- Loop accumulator of `_aggregate_batch_statistics`. -/
structure AggAcc where
  successful : ℕ
  failed : ℕ
  contract_types : List (String × ℕ)
  total_risks : ℕ
  risk_scores : List ℚ
  total_obligations : ℕ
deriving DecidableEq, Repr

/-- One iteration of the `for result in batch_results` loop of
`_aggregate_batch_statistics`. -/
def aggStep (acc : AggAcc) (r : ResultDict) : AggAcc :=
  if r.success then
    let ct := r.contract_type.getD "Unknown"
    let risks := ((r.risk_assessment.map (fun ra => ra.risks)).getD [])
    let risk_score := ((r.risk_assessment.map (fun ra => ra.risk_score)).getD 0)
    { acc with
      successful := acc.successful + 1
      contract_types :=
        dictSet ct (dictGetNat acc.contract_types ct + 1) acc.contract_types
      total_risks := acc.total_risks + risks.length
      risk_scores :=
        if 0 < risk_score then acc.risk_scores ++ [risk_score]
        else acc.risk_scores
      total_obligations := acc.total_obligations + (r.obligations.getD []).length }
  else
    { acc with failed := acc.failed + 1 }

/-- `OrchestratorAgent._aggregate_batch_statistics`
(src/agents/orchestrator_entrypoint.py, lines 371-421). -/
def aggregate_batch_statistics (batch_results : List ResultDict) : AggStats :=
  let acc := batch_results.foldl aggStep ⟨0, 0, [], 0, [], 0⟩
  { total_contracts := batch_results.length
    successful := acc.successful
    failed := acc.failed
    contract_types := acc.contract_types
    total_risks := acc.total_risks
    average_risk_score :=
      if acc.risk_scores.isEmpty then 0
      else acc.risk_scores.sum / (acc.risk_scores.length : ℚ)
    total_obligations := acc.total_obligations }

/-- A value stored in the orchestrator's `results` dict: a sub-agent result
dict, a raw exception object (the `gather(..., return_exceptions=True)`
slots of the compare branch), the whole batch response, or the aggregated
statistics. -/
inductive WfVal where
  | dictV (d : ResultDict)
  | exnV (msg ty : String)
  | batchV (b : BatchResponse)
  | aggV (a : AggStats)
deriving DecidableEq, Repr

/-- How a gathered slot is stored in `results` (the exception object itself
is stored when the child raised). -/
def toWfVal : TaskRun → WfVal
  | .ok d => .dictV d
  | .exn m t => .exnV m t

/-- `batch_result.get('results', [])`: the error dict has no results key. -/
def batchResultsOf : BatchResponse → List ResultDict
  | .okResp results _ _ => results
  | .errResp _ _ _ => []

/-- `batch_result.get('success')`. -/
def batchSuccessOf : BatchResponse → Bool
  | .okResp _ _ _ => true
  | .errResp _ _ _ => false

/-- The dict returned by `orchestrate_multi_agent_workflow`: the completed
dict (`success=True` with the step-keyed results) or the unknown-type error
dict (`success=False`, no results, no execution time). The source's final
except-branch is unreachable here because every sub-agent call is modelled
as a total oracle value. -/
inductive WfResponse where
  | completedR (workflow_type : String) (results : List (String × WfVal))
      (execution_time : ℚ)
  | unknownR (workflow_type : String) (error : String)
      (available_workflows : List String)
deriving DecidableEq, Repr

/-- `OrchestratorAgent.orchestrate_multi_agent_workflow`
(src/agents/orchestrator_entrypoint.py, lines 207-350). The oracles give the
outcome of each sub-agent call the branch may perform: `analysisRes` and
`obligationsRes` for analyze_and_extract, `comparisonRes` plus the two
gathered obligation slots for compare_and_extract, `batchRes` for
batch_analyze_and_aggregate. A second step runs only when the first step's
dict has `success` truthy; otherwise its key is never added to `results`. -/
def orchestrate_multi_agent_workflow (workflow_type : String)
    (analysisRes obligationsRes comparisonRes : ResultDict)
    (obligationsA obligationsB : TaskRun) (batchRes : BatchResponse)
    (wfElapsed : ℚ) : WfResponse :=
  if workflow_type = "analyze_and_extract" then
    .completedR workflow_type
      ([("analysis", WfVal.dictV analysisRes)] ++
       (if analysisRes.success then
          [("obligations", WfVal.dictV obligationsRes)]
        else []))
      wfElapsed
  else if workflow_type = "compare_and_extract" then
    .completedR workflow_type
      ([("comparison", WfVal.dictV comparisonRes)] ++
       (if comparisonRes.success then
          [("obligations_a", toWfVal obligationsA),
           ("obligations_b", toWfVal obligationsB)]
        else []))
      wfElapsed
  else if workflow_type = "batch_analyze_and_aggregate" then
    .completedR workflow_type
      ([("batch", WfVal.batchV batchRes)] ++
       (if batchSuccessOf batchRes then
          [("aggregated_stats",
            WfVal.aggV (aggregate_batch_statistics (batchResultsOf batchRes)))]
        else []))
      wfElapsed
  else
    .unknownR workflow_type ("Unknown workflow type: " ++ workflow_type)
      ["analyze_and_extract", "compare_and_extract", "batch_analyze_and_aggregate"]

/-- The classifier is the boolean disjunction of the pattern scan and the
type-list check (the two successive `if` branches of the source). -/
lemma is_retryable_error_eq (msg ty : String) :
    is_retryable_error msg ty =
      (retryable_patterns.any (fun p => decide (p.data <:+: toLowerChars msg)) ||
       retryable_types.contains ty) := by
  unfold is_retryable_error
  cases h1 : retryable_patterns.any (fun p => decide (p.data <:+: toLowerChars msg)) <;>
    cases h2 : retryable_types.contains ty <;> simp [h1, h2]

/-- C5 (counterexample): the claim says every error whose kind is outside
{Timeout, ConnectionFailure, ServiceUnavailable} and whose message contains
no retryable token is Fatal; but the code also treats the exception type
`ThrottlingException` as retryable, so an error of that type with message
"quota exceeded" (which contains none of the nine tokens) is classified
Retryable, not Fatal. -/
theorem classifier_throttling_counterexample :
    is_retryable_error "quota exceeded" "ThrottlingException" = true ∧
    ¬("ThrottlingException" = "TimeoutError" ∨
      "ThrottlingException" = "ConnectionError" ∨
      "ThrottlingException" = "ServiceUnavailableException") ∧
    ¬∃ tok ∈ retryable_patterns, tok.data <:+: toLowerChars "quota exceeded" := by
  refine ⟨by decide, by decide, by decide⟩

/-- C5 (amended): the classifier is a pure function of the error's type name
and message; it returns Retryable exactly when the type name is one of
TimeoutError, ConnectionError, ThrottlingException or
ServiceUnavailableException, or the lower-cased message contains one of the
nine tokens as a substring; an error with message "permission denied" (and
none of those type names) is Fatal. -/
theorem classifier_characterization (msg ty : String) :
    (is_retryable_error msg ty = true ↔
      ty = "TimeoutError" ∨ ty = "ConnectionError" ∨ ty = "ThrottlingException" ∨
      ty = "ServiceUnavailableException" ∨
      ∃ tok ∈ retryable_patterns, tok.data <:+: toLowerChars msg)
    ∧ is_retryable_error "permission denied" "PermissionError" = false := by
  constructor
  · rw [is_retryable_error_eq]
    simp only [Bool.or_eq_true, List.any_eq_true, decide_eq_true_eq,
      List.elem_iff, retryable_types, List.mem_cons, List.not_mem_nil, or_false]
    constructor
    · rintro (⟨tok, htok, hsub⟩ | hty)
      · exact Or.inr (Or.inr (Or.inr (Or.inr ⟨tok, htok, hsub⟩)))
      · rcases hty with h | h | h | h <;> simp [h]
    · rintro (h | h | h | h | ⟨tok, htok, hsub⟩)
      · exact Or.inr (Or.inl h)
      · exact Or.inr (Or.inr (Or.inl h))
      · exact Or.inr (Or.inr (Or.inr (Or.inl h)))
      · exact Or.inr (Or.inr (Or.inr (Or.inr h)))
      · exact Or.inl ⟨tok, htok, hsub⟩
  · decide

/-- C5 (witness): the characterization instantiated at the message
"permission denied" with type name PermissionError. -/
theorem classifier_characterization_witness :
    is_retryable_error "permission denied" "PermissionError" = false :=
  (classifier_characterization "permission denied" "PermissionError").2

/-- C3: if the first attempt fails with an error the classifier marks
non-retryable, the retry loop breaks out immediately: exactly one attempt is
made, no backoff sleep happens, and the returned value is a failure carrying
that error's type name — for any maxAttempts ≥ 1, in particular 5. -/
theorem fatal_short_circuit (maxRetries : ℕ) (d : ℚ)
    (behavior : ℕ → AttemptOutcome) (m t : String) (hmr : 1 ≤ maxRetries)
    (hb : behavior 0 = .failure m t) (hf : is_retryable_error m t = false) :
    (runRetry behavior maxRetries d).attemptsMade = 1 ∧
    (runRetry behavior maxRetries d).sleeps = [] ∧
    ∃ emsg, (runRetry behavior maxRetries d).result = .err emsg t := by
  obtain ⟨n, rfl⟩ : ∃ n, maxRetries = n + 1 := ⟨maxRetries - 1, by omega⟩
  simp [runRetry, runRetryAux, hb, hf, retryExhausted]

/-- C3 (witness): maxAttempts = 5 and a unit of work that always fails with
the fatal error "permission denied": exactly one attempt occurs. -/
theorem fatal_short_circuit_witness :
    (1 : ℕ) ≤ 5 ∧
    is_retryable_error "permission denied" "PermissionError" = false ∧
    ((runRetry (fun _ => .failure "permission denied" "PermissionError") 5 1).attemptsMade = 1 ∧
     (runRetry (fun _ => .failure "permission denied" "PermissionError") 5 1).sleeps = [] ∧
     ∃ emsg, (runRetry (fun _ => .failure "permission denied" "PermissionError") 5 1).result =
       .err emsg "PermissionError") :=
  ⟨by norm_num, by decide,
   fatal_short_circuit 5 1 (fun _ => .failure "permission denied" "PermissionError")
     "permission denied" "PermissionError" (by norm_num) rfl (by decide)⟩

/-- C4: with maxAttempts = 3 and a unit of work that fails with a retryable
error on every attempt, the loop makes exactly 3 attempts, returns a failure
carrying the last observed error (message and type name), sleeps
baseDelay * 2^0 and baseDelay * 2^1 after attempts 0 and 1 and never after
the final attempt, so the total sleep is baseDelay * (1 + 2). -/
theorem retry_bound_three_attempts (d : ℚ) (behavior : ℕ → AttemptOutcome)
    (msgs tys : ℕ → String)
    (hb : ∀ k, behavior k = .failure (msgs k) (tys k))
    (hr : ∀ k, is_retryable_error (msgs k) (tys k) = true) :
    (runRetry behavior 3 d).attemptsMade = 3 ∧
    (runRetry behavior 3 d).result =
      .err ("Agent execution failed after 3 attempts: " ++ msgs 2) (tys 2) ∧
    (runRetry behavior 3 d).sleeps = [d * 2 ^ 0, d * 2 ^ 1] ∧
    (runRetry behavior 3 d).sleeps.sum = d * (1 + 2) := by
  have e : runRetry behavior 3 d =
      ⟨retryExhausted 3 (some (msgs 2, tys 2)), 3, [d * 2 ^ 0, d * 2 ^ 1]⟩ := by
    simp [runRetry, runRetryAux, hb 0, hb 1, hb 2, hr 0, hr 1, hr 2]
  rw [e]
  refine ⟨rfl, rfl, rfl, ?_⟩
  simp [retryExhausted]
  ring

/-- C4 (witness): the retry bound at baseDelay = 1 with the always-retryable
error "connection lost" of type RuntimeError. -/
theorem retry_bound_three_attempts_witness :
    is_retryable_error "connection lost" "RuntimeError" = true ∧
    ((runRetry (fun _ => .failure "connection lost" "RuntimeError") 3 1).attemptsMade = 3 ∧
     (runRetry (fun _ => .failure "connection lost" "RuntimeError") 3 1).result =
       .err ("Agent execution failed after 3 attempts: " ++ "connection lost") "RuntimeError" ∧
     (runRetry (fun _ => .failure "connection lost" "RuntimeError") 3 1).sleeps =
       [1 * 2 ^ 0, 1 * 2 ^ 1] ∧
     (runRetry (fun _ => .failure "connection lost" "RuntimeError") 3 1).sleeps.sum =
       1 * (1 + 2)) :=
  ⟨by decide,
   retry_bound_three_attempts 1 (fun _ => .failure "connection lost" "RuntimeError")
     (fun _ => "connection lost") (fun _ => "RuntimeError")
     (fun _ => rfl) (fun _ => by
       show is_retryable_error "connection lost" "RuntimeError" = true
       decide)⟩

/-- Folding slot writes over the completion order preserves the slot-array
length. -/
lemma foldl_set_length (runs : List TaskRun) (order : List ℕ)
    (acc : List (Option TaskRun)) :
    (order.foldl (fun s i => s.set i runs[i]?) acc).length = acc.length := by
  induction order generalizing acc with
  | nil => rfl
  | cons i rest ih => simp [List.foldl_cons, ih]

/-- A slot whose index never completes is left untouched. -/
lemma foldl_set_not_mem (runs : List TaskRun) (order : List ℕ)
    (acc : List (Option TaskRun)) (j : ℕ) (hj : j ∉ order) :
    (order.foldl (fun s i => s.set i runs[i]?) acc)[j]? = acc[j]? := by
  induction order generalizing acc with
  | nil => rfl
  | cons i rest ih =>
      simp only [List.mem_cons, not_or] at hj
      rw [List.foldl_cons, ih _ hj.2, List.getElem?_set_ne (Ne.symm hj.1)]

/-- A slot whose index completes at any point holds that task's own outcome
afterwards, regardless of where in the completion order it appears. -/
lemma foldl_set_mem (runs : List TaskRun) (order : List ℕ)
    (acc : List (Option TaskRun)) (j : ℕ) (hmem : j ∈ order)
    (hj : j < acc.length) :
    (order.foldl (fun s i => s.set i runs[i]?) acc)[j]? = some runs[j]? := by
  induction order generalizing acc with
  | nil => cases hmem
  | cons i rest ih =>
      rw [List.foldl_cons]
      by_cases hjr : j ∈ rest
      · exact ih _ hjr (by simpa using hj)
      · have hij : j = i := by
          rcases List.mem_cons.mp hmem with h | h
          · exact h
          · exact absurd h hjr
        subst hij
        rw [foldl_set_not_mem runs rest _ j hjr, List.getElem?_set_self hj]

/-- Once every task index has completed, the gathered list is exactly the
input-ordered outcome list: gather is completion-order independent. -/
lemma gatherModel_eq (runs : List TaskRun) (order : List ℕ)
    (h : ∀ j, j < runs.length → j ∈ order) :
    gatherModel runs order = runs := by
  unfold gatherModel
  apply List.ext_getElem?_iff.mpr
  intro j
  rw [List.getElem?_map]
  by_cases hj : j < runs.length
  · rw [foldl_set_mem runs order _ j (h j hj) (by simpa using hj)]
    simp [List.getElem?_eq_getElem hj]
  · have h1 : (order.foldl (fun s i => s.set i runs[i]?)
        (List.replicate runs.length (none : Option TaskRun))).length ≤ j := by
      rw [foldl_set_length]
      simpa using Nat.le_of_not_lt hj
    rw [List.getElem?_eq_none h1, List.getElem?_eq_none (Nat.le_of_not_lt hj)]
    rfl

/-- On a non-empty batch, `process_batch` succeeds and its results list is
index-aligned with the input contracts. -/
lemma process_batch_nonempty (contracts : List Contract)
    (exec : ℕ → Contract → TaskRun) (order : List ℕ) (bt : ℚ)
    (hne : contracts ≠ [])
    (horder : ∀ j, j < contracts.length → j ∈ order) :
    ∃ processed,
      process_batch contracts exec order bt =
        .okResp processed (calculate_batch_statistics processed) bt ∧
      processed.length = contracts.length ∧
      (∀ i, processed[i]? =
        (contracts[i]?).map (fun c => handleGatherResult i (exec i c))) := by
  have hemp : contracts.isEmpty = false := by
    cases contracts with
    | nil => exact absurd rfl hne
    | cons a l => rfl
  set runs := contracts.enum.map (fun p => exec p.1 p.2) with hruns
  have hrl : runs.length = contracts.length := by simp [hruns]
  have hg : gatherModel runs order = runs :=
    gatherModel_eq runs order (fun j hj => horder j (hrl ▸ hj))
  refine ⟨(gatherModel runs order).enum.map (fun p => handleGatherResult p.1 p.2),
    ?_, ?_, ?_⟩
  · unfold process_batch
    rw [hemp]
    rfl
  · simp [hg, hrl]
  · intro i
    rw [hg]
    rw [List.getElem?_map, List.getElem?_enum]
    rw [hruns, List.getElem?_map, List.getElem?_enum]
    cases hci : contracts[i]? with
    | none => rfl
    | some c => rfl

/-- The demo batch evaluates to the expected processed list (and its
statistics). -/
lemma demo_batch_eq :
    process_batch demoContracts demoExec (List.range 10) 0 =
      .okResp demoProcessed (calculate_batch_statistics demoProcessed) 0 := by
  rfl

/-- The demo batch's success rate is 8/10 · 100 = 80. -/
lemma demo_rate :
    (calculate_batch_statistics demoProcessed).success_rate = 80 := by
  have h : (calculate_batch_statistics demoProcessed).success_rate =
      if 0 < demoProcessed.length then
        ((demoProcessed.filter (fun r => r.success)).length : ℚ) /
          (demoProcessed.length : ℚ) * 100
      else 0 := rfl
  rw [h]
  have h8 : (demoProcessed.filter (fun r => r.success)).length = 8 := by decide
  have h10 : demoProcessed.length = 10 := by decide
  rw [h8, h10]
  norm_num

/-- C1: on any non-empty batch, `process_batch` returns a success dict whose
results list has the same length as the input and whose `i`-th entry is the
outcome of task `i` (regardless of completion order); a task coroutine that
raised is recorded as a failure dict at its own index carrying the
exception's string and type name, without touching sibling entries, and no
exception escapes; in particular the 10-task demo batch with failures at
indices 2 and 5 yields 10 results, failures exactly there, and success rate
80. -/
theorem batch_isolation_and_alignment (contracts : List Contract)
    (exec : ℕ → Contract → TaskRun) (order : List ℕ) (bt : ℚ)
    (hne : contracts ≠ [])
    (horder : ∀ j, j < contracts.length → j ∈ order) :
    (∃ processed stats,
      process_batch contracts exec order bt = .okResp processed stats bt ∧
      processed.length = contracts.length ∧
      (∀ i, processed[i]? =
        (contracts[i]?).map (fun c => handleGatherResult i (exec i c))) ∧
      (∀ i c m t, contracts[i]? = some c → exec i c = .exn m t →
        processed[i]? = some { success := false, contract_index := some i,
                               error := some m, error_type := some t })) ∧
    (∃ dp ds,
      process_batch demoContracts demoExec (List.range 10) 0 = .okResp dp ds 0 ∧
      dp.length = 10 ∧
      (dp[2]?).map (fun r => r.success) = some false ∧
      (dp[5]?).map (fun r => r.success) = some false ∧
      (∀ i, i < 10 → i ≠ 2 → i ≠ 5 →
        (dp[i]?).map (fun r => r.success) = some true) ∧
      ds.success_rate = 80) := by
  obtain ⟨processed, heq, hlen, hidx⟩ :=
    process_batch_nonempty contracts exec order bt hne horder
  constructor
  · refine ⟨processed, calculate_batch_statistics processed, heq, hlen, hidx, ?_⟩
    intro i c m t hc he
    rw [hidx i, hc]
    simp [handleGatherResult, he]
  · exact ⟨demoProcessed, calculate_batch_statistics demoProcessed, demo_batch_eq,
      by decide, by decide, by decide, by decide, demo_rate⟩

/-- C1 (witness): the isolation theorem applied to the concrete demo
batch. -/
theorem batch_isolation_witness :
    demoContracts ≠ [] ∧
    (∃ processed stats,
      process_batch demoContracts demoExec (List.range 10) 0 =
        .okResp processed stats 0 ∧
      processed.length = demoContracts.length) := by
  have hne : demoContracts ≠ [] := by decide
  have hord : ∀ j, j < demoContracts.length → j ∈ List.range 10 := by
    intro j hj
    have h10 : demoContracts.length = 10 := by decide
    rw [h10] at hj
    simpa [List.mem_range] using hj
  obtain ⟨⟨p, s, heq, hlen, _⟩, _⟩ :=
    batch_isolation_and_alignment demoContracts demoExec (List.range 10) 0 hne hord
  exact ⟨hne, p, s, heq, hlen⟩

/-- C8: `process_batch` on the empty contract list returns the structural
failure dict — `success=False` with the human-readable error
"No contracts provided", zero execution cost, and (structurally) no per-task
results and no statistics block — never an empty success. -/
theorem empty_batch_structural_failure (exec : ℕ → Contract → TaskRun)
    (order : List ℕ) (bt : ℚ) :
    process_batch [] exec order bt = .errResp "No contracts provided" none 0 :=
  rfl

lemma dictGetNat_cons (p : String × ℕ) (l : List (String × ℕ)) (key : String) :
    dictGetNat (p :: l) key = if p.1 == key then p.2 else dictGetNat l key := by
  by_cases h : (p.1 == key) = true <;> simp [dictGetNat, List.find?, h]

lemma dictGetNat_dictSet (k : String) (v : ℕ) (d : List (String × ℕ)) (key : String) :
    dictGetNat (dictSet k v d) key = if key = k then v else dictGetNat d key := by
  induction d with
  | nil =>
      rw [show dictSet k v [] = [(k, v)] from rfl, dictGetNat_cons]
      by_cases h : key = k
      · simp [h]
      · have hk : ¬(k == key) = true := by
          simp only [beq_iff_eq]
          exact fun he => h he.symm
        simp [hk, h, dictGetNat]
  | cons p rest ih =>
      rw [show dictSet k v (p :: rest) =
            (if p.1 == k then (k, v) :: rest else p :: dictSet k v rest) from rfl]
      by_cases hpk : (p.1 == k) = true
      · rw [if_pos hpk, dictGetNat_cons, dictGetNat_cons]
        have hp1 : p.1 = k := by simpa using hpk
        by_cases h : key = k
        · simp [h]
        · have hk : ¬(k == key) = true := by
            simp only [beq_iff_eq]
            exact fun he => h he.symm
          have hpkey : ¬(p.1 == key) = true := by
            rw [hp1]
            exact hk
          simp [hk, hpkey, h]
      · rw [if_neg hpk, dictGetNat_cons, ih, dictGetNat_cons]
        by_cases h : key = k
        · subst h
          simp [hpk]
        · simp [h]

lemma hist_fold (results : List ResultDict) (acc : List (String × ℕ)) (key : String) :
    dictGetNat (results.foldl
      (fun d r =>
        if r.success then
          dictSet (r.contract_type.getD "Unknown")
            (dictGetNat d (r.contract_type.getD "Unknown") + 1) d
        else d)
      acc) key =
    dictGetNat acc key +
      results.countP (fun r => r.success && (r.contract_type.getD "Unknown" == key)) := by
  induction results generalizing acc with
  | nil => simp
  | cons r rest ih =>
      rw [List.foldl_cons, ih, List.countP_cons]
      by_cases hs : r.success
      · by_cases hk : r.contract_type.getD "Unknown" = key
        · simp only [hs, if_true, dictGetNat_dictSet, hk, if_pos rfl]
          simp [hs, hk]
          omega
        · have : ¬(key = r.contract_type.getD "Unknown") := fun h => hk h.symm
          simp only [hs, if_true, dictGetNat_dictSet, if_neg this]
          simp [hs, hk]
      · simp [hs]

lemma foldl_min_mem (t : ℚ) (ts : List ℚ) : ts.foldl min t ∈ t :: ts := by
  induction ts generalizing t with
  | nil => simp
  | cons a rest ih =>
      rw [List.foldl_cons]
      have h := ih (min t a)
      simp only [List.mem_cons] at h ⊢
      rcases h with h | h
      · rcases min_choice t a with hm | hm
        · left
          rw [h, hm]
        · right; left
          rw [h, hm]
      · right; right
        exact h

lemma foldl_min_le (t : ℚ) (ts : List ℚ) : ∀ x ∈ t :: ts, ts.foldl min t ≤ x := by
  induction ts generalizing t with
  | nil =>
      intro x hx
      simp only [List.mem_cons, List.not_mem_nil, or_false] at hx
      simp [hx]
  | cons a rest ih =>
      intro x hx
      rw [List.foldl_cons]
      have h1 := ih (min t a)
      simp only [List.mem_cons] at hx
      rcases hx with rfl | rfl | hx
      · exact le_trans (h1 (min x a) (by simp)) (min_le_left x a)
      · exact le_trans (h1 (min t x) (by simp)) (min_le_right t x)
      · exact h1 x (by simp [hx])

lemma foldl_max_mem (t : ℚ) (ts : List ℚ) : ts.foldl max t ∈ t :: ts := by
  induction ts generalizing t with
  | nil => simp
  | cons a rest ih =>
      rw [List.foldl_cons]
      have h := ih (max t a)
      simp only [List.mem_cons] at h ⊢
      rcases h with h | h
      · rcases max_choice t a with hm | hm
        · left
          rw [h, hm]
        · right; left
          rw [h, hm]
      · right; right
        exact h

lemma foldl_le_max (t : ℚ) (ts : List ℚ) : ∀ x ∈ t :: ts, x ≤ ts.foldl max t := by
  induction ts generalizing t with
  | nil =>
      intro x hx
      simp only [List.mem_cons, List.not_mem_nil, or_false] at hx
      simp [hx]
  | cons a rest ih =>
      intro x hx
      rw [List.foldl_cons]
      have h1 := ih (max t a)
      simp only [List.mem_cons] at hx
      rcases hx with rfl | rfl | hx
      · exact le_trans (le_max_left x a) (h1 (max x a) (by simp))
      · exact le_trans (le_max_right t x) (h1 (max t x) (by simp))
      · exact h1 x (by simp [hx])


/-- C9: for any completed results list, the statistics satisfy:
success rate is successCount/total*100 (0 at total 0); average, minimum and
maximum execution times are computed over exactly the outcomes that carry a
recorded elapsed time (0 when none does: the average times the count is the
sum, the minimum/maximum are attained and bound every recorded time); and
the contract-type histogram counts only successful outcomes, keyed by their
classifier value (contract_type, default "Unknown"). -/
theorem batch_statistics_spec (results : List ResultDict) :
    (calculate_batch_statistics results).success_rate =
      (if 0 < results.length then
        ((results.countP (fun r => r.success) : ℚ) / (results.length : ℚ) * 100)
       else 0) ∧
    (executionTimes results = [] →
      (calculate_batch_statistics results).average_execution_time = 0 ∧
      (calculate_batch_statistics results).min_execution_time = 0 ∧
      (calculate_batch_statistics results).max_execution_time = 0) ∧
    (executionTimes results ≠ [] →
      (calculate_batch_statistics results).average_execution_time *
        ((executionTimes results).length : ℚ) = (executionTimes results).sum ∧
      (calculate_batch_statistics results).min_execution_time ∈ executionTimes results ∧
      (∀ x ∈ executionTimes results,
        (calculate_batch_statistics results).min_execution_time ≤ x) ∧
      (calculate_batch_statistics results).max_execution_time ∈ executionTimes results ∧
      (∀ x ∈ executionTimes results,
        x ≤ (calculate_batch_statistics results).max_execution_time)) ∧
    (∀ key, dictGetNat (calculate_batch_statistics results).contract_types key =
      results.countP (fun r => r.success && (r.contract_type.getD "Unknown" == key))) := by
  have havg : (calculate_batch_statistics results).average_execution_time =
      if (executionTimes results).isEmpty then 0
      else (executionTimes results).sum / ((executionTimes results).length : ℚ) := rfl
  have hmin : (calculate_batch_statistics results).min_execution_time =
      (match executionTimes results with
       | [] => (0 : ℚ)
       | t :: ts => ts.foldl min t) := rfl
  have hmax : (calculate_batch_statistics results).max_execution_time =
      (match executionTimes results with
       | [] => (0 : ℚ)
       | t :: ts => ts.foldl max t) := rfl
  refine ⟨?_, ?_, ?_, ?_⟩
  · have hr : (calculate_batch_statistics results).success_rate =
        if 0 < results.length then
          ((results.filter (fun r => r.success)).length : ℚ) /
            (results.length : ℚ) * 100
        else 0 := rfl
    rw [hr, List.countP_eq_length_filter]
  · intro h
    rw [havg, hmin, hmax, h]
    simp
  · intro h
    cases hE : executionTimes results with
    | nil => exact absurd hE h
    | cons t ts =>
        rw [havg, hmin, hmax, hE]
        have hlen : ((t :: ts).length : ℚ) ≠ 0 := by
          simp only [List.length_cons]
          positivity
        refine ⟨?_, ?_, ?_, ?_, ?_⟩
        · simp only [List.isEmpty_cons, if_neg Bool.false_ne_true]
          exact div_mul_cancel₀ _ hlen
        · exact foldl_min_mem t ts
        · exact foldl_min_le t ts
        · exact foldl_max_mem t ts
        · exact foldl_le_max t ts
  · intro key
    have hh : (calculate_batch_statistics results).contract_types =
        contractTypesHist results := rfl
    rw [hh]
    show dictGetNat (results.foldl
      (fun d r =>
        if r.success then
          dictSet (r.contract_type.getD "Unknown")
            (dictGetNat d (r.contract_type.getD "Unknown") + 1) d
        else d) []) key = _
    rw [hist_fold]
    simp [dictGetNat]



/-- C9 (witness): the statistics specification at a concrete two-element
results list with one recorded execution time. -/
theorem batch_statistics_spec_witness :
    executionTimes demoStatsInput ≠ [] ∧
    ((calculate_batch_statistics demoStatsInput).min_execution_time ∈
       executionTimes demoStatsInput ∧
     (calculate_batch_statistics demoStatsInput).average_execution_time *
       ((executionTimes demoStatsInput).length : ℚ) =
       (executionTimes demoStatsInput).sum) := by
  have h := batch_statistics_spec demoStatsInput
  have hne : executionTimes demoStatsInput ≠ [] := by decide
  exact ⟨hne, (h.2.2.1 hne).2.1, (h.2.2.1 hne).1⟩

/-- C2 (counterexample): the per-task path of the batch agent is not
wrapped by the retry executor. For a contract whose analysis raises the
retryable error "connection reset by peer", `_process_single_contract`
invokes the analysis exactly once and records the failure, whereas
`execute_with_retry` with the default maxAttempts 3 would have made 3
attempts on that same error. -/
theorem single_attempt_counterexample :
    is_retryable_error "connection reset by peer" "OSError" = true ∧
    (processSingleContract (demoContract 0) 0 1
      (.exn "connection reset by peer" "OSError")).2 = 1 ∧
    (runRetry (fun _ => .failure "connection reset by peer" "OSError") 3 1).attemptsMade = 3 := by
  have h : is_retryable_error "connection reset by peer" "OSError" = true := by decide
  refine ⟨h, by decide, ?_⟩
  simp [runRetry, runRetryAux, h]

/-- C2 (amended): the scheduled per-task unit of work acquires the
semaphore and then runs the per-task executor exactly once — it is not
wrapped by the RetryExecutor — so any failure, retryable or not, is
recorded immediately as that task's failure dict (carrying the message and
type name at the task's index) after a single attempt. -/
theorem per_task_single_attempt (c : Contract) (idx : ℕ) (elapsed : ℚ)
    (run : TaskRun) (hv : pyTruthy c.text = true) :
    (processSingleContract c idx elapsed run).2 = 1 ∧
    (∀ m t, run = .exn m t →
      (processSingleContract c idx elapsed run).1.success = false ∧
      (processSingleContract c idx elapsed run).1.error = some m ∧
      (processSingleContract c idx elapsed run).1.error_type = some t ∧
      (processSingleContract c idx elapsed run).1.contract_index = some idx) := by
  have hc : (!pyTruthy c.text && !(pyTruthy c.s3_bucket && pyTruthy c.s3_key)) = false := by
    rw [hv]
    rfl
  unfold processSingleContract
  rw [hc]
  cases run with
  | ok d => simp
  | exn m t => simp

/-- C2 (witness): the single-attempt theorem at a concrete contract with
text and a raising analysis. -/
theorem per_task_single_attempt_witness :
    pyTruthy (demoContract 0).text = true ∧
    (processSingleContract (demoContract 0) 0 1 (.exn "boom" "ValueError")).2 = 1 := by
  have h := per_task_single_attempt (demoContract 0) 0 1 (.exn "boom" "ValueError") (by decide)
  exact ⟨by decide, h.1⟩

/-- C6 (counterexample): in the analyze_and_extract workflow with a failed
step A, the returned results mapping contains only the "analysis" entry —
there is no "obligations" entry at all, so step B is omitted rather than
recorded as a Skipped outcome — while the workflow still completes with
success=True. -/
theorem workflow_gate_no_skipped_counterexample :
    orchestrate_multi_agent_workflow "analyze_and_extract" failedAnalysis okDict okDict
      (.ok okDict) (.ok okDict) (.errResp "x" none 0) 7 =
      .completedR "analyze_and_extract" [("analysis", .dictV failedAnalysis)] 7 ∧
    List.lookup "obligations" [("analysis", WfVal.dictV failedAnalysis)] = none := by
  constructor
  · rfl
  · rfl

/-- C6 (amended): in the sequential workflow "A then B"
(analyze_and_extract), if step A's outcome is not Success then step B does
not execute and its key is omitted from the results mapping (the code has no
Skipped outcome kind), and the workflow still returns Completed
(success=True) with the partial results. -/
theorem workflow_gate_omits_step (a b c : ResultDict) (oa ob : TaskRun)
    (br : BatchResponse) (t : ℚ) (ha : a.success = false) :
    ∃ res,
      orchestrate_multi_agent_workflow "analyze_and_extract" a b c oa ob br t =
        .completedR "analyze_and_extract" res t ∧
      List.lookup "analysis" res = some (WfVal.dictV a) ∧
      List.lookup "obligations" res = none := by
  refine ⟨[("analysis", WfVal.dictV a)], ?_, by rfl, by rfl⟩
  unfold orchestrate_multi_agent_workflow
  rw [if_pos rfl, ha]
  simp

/-- C6 (witness): the gating theorem at a concrete failed step-A result. -/
theorem workflow_gate_omits_step_witness :
    failedAnalysis.success = false ∧
    (∃ res,
      orchestrate_multi_agent_workflow "analyze_and_extract" failedAnalysis okDict okDict
        (.ok okDict) (.ok okDict) (.errResp "x" none 0) 7 =
        .completedR "analyze_and_extract" res 7 ∧
      List.lookup "analysis" res = some (WfVal.dictV failedAnalysis) ∧
      List.lookup "obligations" res = none) :=
  ⟨rfl, workflow_gate_omits_step failedAnalysis okDict okDict (.ok okDict) (.ok okDict)
    (.errResp "x" none 0) 7 rfl⟩

lemma countP_set_phase (l : List Phase) (i : ℕ) (v : Phase) (p : Phase → Bool)
    (hlt : i < l.length) :
    (l.set i v).countP p + (if p l[i] then 1 else 0) =
      l.countP p + (if p v then 1 else 0) := by
  induction l generalizing i with
  | nil => simp at hlt
  | cons a rest ih =>
      cases i with
      | zero =>
          simp [List.countP_cons]
          omega
      | succ j =>
          simp only [List.set_cons_succ, List.countP_cons, List.getElem_cons_succ]
          have := ih j (by simpa using hlt)
          omega

lemma reachable_invariant (n tasks : ℕ) (s : SemState) (h : Reachable n tasks s) :
    countCritical s + s.count = n := by
  induction h with
  | refl =>
      have hz : ∀ a ∈ List.replicate tasks Phase.waiting, ¬(a == Phase.critical) = true := by
        intro a ha
        rw [List.eq_of_mem_replicate ha]
        decide
      simp [countCritical, initState, List.countP_eq_zero.mpr hz]
  | @tail b c hab hbc ih =>
      cases hbc with
      | acquire i hw hc =>
          have hlt : i < b.phases.length := by
            by_contra hge
            rw [List.getElem?_eq_none (Nat.le_of_not_lt hge)] at hw
            cases hw
          have hcur : b.phases[i] = Phase.waiting := by
            rw [List.getElem?_eq_getElem hlt] at hw
            exact Option.some_inj.mp hw
          have hcp := countP_set_phase b.phases i .critical
            (fun p => p == Phase.critical) hlt
          rw [hcur] at hcp
          simp only [countCritical] at ih ⊢
          simp at hcp
          omega
      | release i hcrit =>
          have hlt : i < b.phases.length := by
            by_contra hge
            rw [List.getElem?_eq_none (Nat.le_of_not_lt hge)] at hcrit
            cases hcrit
          have hcur : b.phases[i] = Phase.critical := by
            rw [List.getElem?_eq_getElem hlt] at hcrit
            exact Option.some_inj.mp hcrit
          have hcp := countP_set_phase b.phases i .done
            (fun p => p == Phase.critical) hlt
          rw [hcur] at hcp
          simp only [countCritical] at ih ⊢
          simp at hcp
          omega

/-- C10: in every state reachable by any interleaving of a batch's
semaphore-guarded tasks under concurrency limit n (in particular n = 2 with
5 tasks), at most n tasks are inside their critical section
simultaneously. -/
theorem concurrency_ceiling (n tasks : ℕ) (s : SemState)
    (h : Reachable n tasks s) : countCritical s ≤ n := by
  have := reachable_invariant n tasks s h
  omega

/-- C10 (witness): the ceiling theorem at a concrete reachable state of a
batch of 5 tasks under limit 2. -/
theorem concurrency_ceiling_witness :
    Reachable 2 5 ⟨1, [.critical, .waiting, .waiting, .waiting, .waiting]⟩ ∧
    countCritical ⟨1, [.critical, .waiting, .waiting, .waiting, .waiting]⟩ ≤ 2 := by
  have hr : Reachable 2 5 ⟨1, [.critical, .waiting, .waiting, .waiting, .waiting]⟩ := by
    exact Relation.ReflTransGen.single
      (SemStep.acquire (initState 2 5) 0 rfl (by norm_num [initState]))
  exact ⟨hr, concurrency_ceiling 2 5 _ hr⟩

/-- C7 (counterexample): constructing the concurrency limiter with N = 0
does not fail: `asyncio.Semaphore(0)` is accepted (only negative values
raise ValueError), so there is no fail-fast at construction time. -/
theorem semaphore_zero_accepted_counterexample :
    semaphoreInit 0 = .ok 0 := rfl

/-- C7 (amended): the limiter construction succeeds exactly for N ≥ 0 —
N = 0 is accepted rather than rejected — and under a semaphore initialised
to 0 no task can ever enter its critical section, so a batch run with
max_concurrent = 0 would hang instead of failing fast. -/
theorem semaphore_construction_bound (v : Int) :
    ((∃ st, semaphoreInit v = .ok st) ↔ 0 ≤ v) ∧
    semaphoreInit 0 = .ok 0 ∧
    (∀ tasks s, Reachable 0 tasks s → countCritical s = 0) := by
  refine ⟨?_, rfl, ?_⟩
  · unfold semaphoreInit
    by_cases h : v < 0
    · simp [h]
    · simp [h]
      omega
  · intro tasks s hr
    have := reachable_invariant 0 tasks s hr
    omega

/-- C7 (witness): construction succeeds at 5 and at 0 no progress is
possible from the initial state. -/
theorem semaphore_construction_bound_witness :
    (∃ st, semaphoreInit 5 = .ok st) ∧
    Reachable 0 3 (initState 0 3) ∧
    countCritical (initState 0 3) = 0 := by
  have hr : Reachable 0 3 (initState 0 3) := Relation.ReflTransGen.refl
  exact ⟨(semaphore_construction_bound 5).1.mpr (by omega), hr,
    (semaphore_construction_bound 0).2.2 3 _ hr⟩

end ContractAI
